import Mathlib

/-!
Verification of the walk-forward backtesting core of the lotto repository.

The definitions below are a shallow embedding of the JavaScript source:

* `WalkForwardBacktester` (src/js/main.js): fold generation (`generateFolds`),
  the per-fold run loop (`run`), per-fold evaluation (`evaluateFold`),
  hit counting (`countHits`) and metric aggregation (`aggregateMetrics`);
* `calculateMetrics` and the hard-coded `RANDOM_BASELINES` table (src/js/main.js);
* `ProbabilityScorer.analyzeCalibration` (calibration bins, ECE, Brier score);
* `AdvancedBacktester.combination` / `hypergeometricPMF` / `calculateRandomHit3Plus`
  (iterative binomial coefficient and hypergeometric tail);
* `StrategyOptimizer.generateParamCombinations` / `optimize` / `extractMetric`
  (src/js/backtest/optimizer.js).

JavaScript numbers are modelled as `ℤ` (indices, rounds, config sizes) and `ℚ`
(scores, rates, probabilities); `Array.prototype.slice` is modelled with its
index-clamping semantics; the unbounded `while (true)` loop of `generateFolds`
is modelled with explicit fuel, the boolean of the result recording whether the
loop exited by itself (`true`) or the fuel ran out (`false`); functions that can
throw are modelled with `Except`.  The stable in-place `Array.prototype.sort`
is modelled by `List.insertionSort` (a stable sort agrees with any stable sort).
-/

namespace Lotto

/-- One historical draw record: `{ round, numbers, bonus }` as used by
`WalkForwardBacktester` (`data` array elements). -/
structure DrawRecord where
  round : ℤ
  numbers : List ℤ
  bonus : ℤ
deriving DecidableEq, Repr

/-- `config.windowType` of the walk-forward configuration. -/
inductive WindowType where
  | rolling
  | anchored
deriving DecidableEq, Repr

/-- The walk-forward configuration consumed by `generateFolds`. -/
structure WalkForwardConfig where
  trainSize : ℤ
  testSize : ℤ
  stepSize : ℤ
  windowType : WindowType
  minTrainSize : ℤ
deriving DecidableEq, Repr

/-- `Array.prototype.slice(s, e)`: indices are clamped to `[0, length]`,
negative indices count from the end, and the elements with index in
`[s, e)` (after clamping) are returned. -/
def jsSlice {α : Type} (l : List α) (s e : ℤ) : List α :=
  let len : ℤ := l.length
  let k : ℤ := if s < 0 then max (len + s) 0 else min s len
  let fin : ℤ := if e < 0 then max (len + e) 0 else min e len
  (l.take fin.toNat).drop k.toNat

/-- One fold produced by `WalkForwardBacktester.generateFolds`.  The
JavaScript object carries the two slices (`trainRounds`/`testRounds`, with
aliases `trainData`/`testData`); the four index fields record the slice
bounds the loop computed them from. -/
structure Fold where
  trainStartIdx : ℤ
  trainEndIdx : ℤ
  testStartIdx : ℤ
  testEndIdx : ℤ
  trainRounds : List DrawRecord
  testRounds : List DrawRecord
deriving DecidableEq, Repr

namespace WalkForwardBacktester

/-- The body of the `while (true)` loop of `generateFolds`, with explicit
fuel.  The second component of the result is `true` when the loop exited
through one of its `break` statements and `false` when the fuel ran out
(i.e. the JavaScript loop had not terminated after that many iterations). -/
def generateFoldsAux (data : List DrawRecord) (cfg : WalkForwardConfig) :
    ℕ → ℤ → List Fold → List Fold × Bool
  | 0, _, acc => (acc.reverse, false)
  | fuel + 1, startIdx, acc =>
    let totalRounds : ℤ := data.length
    let trainStartIdx : ℤ := startIdx
    let trainEndIdx : ℤ :=
      match cfg.windowType with
      | WindowType.anchored => startIdx + cfg.trainSize - 1
      | WindowType.rolling => startIdx + cfg.trainSize - 1
    let testStartIdx : ℤ := trainEndIdx + 1
    let testEndIdx : ℤ := testStartIdx + cfg.testSize - 1
    if totalRounds ≤ trainEndIdx ∨ totalRounds ≤ testEndIdx then
      (acc.reverse, true)
    else if trainEndIdx - trainStartIdx + 1 < cfg.minTrainSize then
      (acc.reverse, true)
    else
      let fold : Fold :=
        { trainStartIdx := trainStartIdx
          trainEndIdx := trainEndIdx
          testStartIdx := testStartIdx
          testEndIdx := testEndIdx
          trainRounds := jsSlice data trainStartIdx (trainEndIdx + 1)
          testRounds := jsSlice data testStartIdx (testEndIdx + 1) }
      let nextStart : ℤ := startIdx + cfg.stepSize
      if totalRounds ≤ nextStart then ((fold :: acc).reverse, true)
      else generateFoldsAux data cfg fuel nextStart (fold :: acc)

/-- `WalkForwardBacktester.generateFolds`.  For any `stepSize ≥ 1` the loop
runs at most `data.length + 1` iterations, so `data.length + 2` fuel is
enough for the loop to exit by itself (second component `true`). -/
def generateFolds (data : List DrawRecord) (cfg : WalkForwardConfig) :
    List Fold × Bool :=
  generateFoldsAux data cfg (data.length + 2) 0 []

end WalkForwardBacktester

/-- Concrete draw record used in the concrete-input theorems. -/
def mkRec (n : ℤ) : DrawRecord :=
  { round := n, numbers := [1, 2, 3, 4, 5, 6], bonus := 7 }

/-- A 10-element draw sequence with rounds 1..10. -/
def data10 : List DrawRecord :=
  (List.range 10).map (fun i => mkRec ((i : ℤ) + 1))

/-- `trainSize=5, testSize=2, stepSize=1, rolling, minTrainSize=5`. -/
def cfgRolling1 : WalkForwardConfig :=
  { trainSize := 5, testSize := 2, stepSize := 1
    windowType := WindowType.rolling, minTrainSize := 5 }

/-- Same sizes as `cfgRolling1` but with the anchored window type. -/
def cfgAnchored1 : WalkForwardConfig :=
  { cfgRolling1 with windowType := WindowType.anchored }

/-- Same sizes as `cfgRolling1` but with `stepSize = 0`. -/
def cfgStep0 : WalkForwardConfig :=
  { cfgRolling1 with stepSize := 0 }

namespace WalkForwardBacktester

/-- Every fold ever pushed by the `generateFolds` loop has
`testStartIdx = trainEndIdx + 1`, regardless of fuel, start index and
already-accumulated folds. -/
theorem generateFoldsAux_inv (data : List DrawRecord) (cfg : WalkForwardConfig) :
    ∀ (fuel : ℕ) (startIdx : ℤ) (acc : List Fold) (f : Fold),
      (∀ g ∈ acc, g.testStartIdx = g.trainEndIdx + 1) →
      f ∈ (generateFoldsAux data cfg fuel startIdx acc).1 →
      f.testStartIdx = f.trainEndIdx + 1 := by
  intro fuel
  induction fuel with
  | zero =>
    intro startIdx acc f hacc hf
    simp only [generateFoldsAux, List.mem_reverse] at hf
    exact hacc f hf
  | succ n ih =>
    intro startIdx acc f hacc hf
    simp only [generateFoldsAux] at hf
    split at hf
    · simp only [List.mem_reverse] at hf
      exact hacc f hf
    · split at hf
      · simp only [List.mem_reverse] at hf
        exact hacc f hf
      · split at hf
        · simp only [List.mem_reverse, List.mem_cons] at hf
          rcases hf with hf | hf
          · subst hf; rfl
          · exact hacc f hf
        · refine ih _ _ f ?_ hf
          intro g hg
          rcases List.mem_cons.mp hg with hg | hg
          · subst hg; rfl
          · exact hacc g hg

end WalkForwardBacktester

/-- C1: every fold emitted by `WalkForwardBacktester.generateFolds` — for any
draw sequence, any configuration (any `trainSize`, `testSize`, `stepSize`,
`minTrainSize`) and both window types — keeps all train indices strictly
below all test indices: `max(trainRange) < min(testRange)`. -/
theorem generateFolds_no_leakage (data : List DrawRecord)
    (cfg : WalkForwardConfig) (f : Fold) (i j : ℤ)
    (hf : f ∈ (WalkForwardBacktester.generateFolds data cfg).1)
    (hi1 : f.trainStartIdx ≤ i) (hi2 : i ≤ f.trainEndIdx)
    (hj1 : f.testStartIdx ≤ j) (hj2 : j ≤ f.testEndIdx) : i < j := by
  have h := WalkForwardBacktester.generateFoldsAux_inv data cfg
    (data.length + 2) 0 [] f (by intro g hg; cases hg) hf
  omega

/-- Witness for C1: the first rolling fold on the 10-round sequence has train
indices up to 4 and test indices from 5, and indeed `4 < 5`. -/
theorem generateFolds_no_leakage_witness : (4 : ℤ) < 5 :=
  generateFolds_no_leakage data10 cfgRolling1
    { trainStartIdx := 0, trainEndIdx := 4, testStartIdx := 5, testEndIdx := 6
      trainRounds := jsSlice data10 0 5, testRounds := jsSlice data10 5 7 }
    4 5 (by decide) (by decide) (by decide) (by decide) (by decide)

/-- C3: with `sequenceLength=10, trainSize=5, testSize=2, stepSize=1,
windowType=rolling, minTrainSize=5` the generator terminates with exactly the
4 folds `([0..4],[5..6]), ([1..5],[6..7]), ([2..6],[7..8]), ([3..7],[8..9])`,
in that order, each carrying the corresponding slices of the sequence; and the
generator is a pure function, so identical inputs yield identical fold lists. -/
theorem generateFolds_example_and_deterministic :
    ((WalkForwardBacktester.generateFolds data10 cfgRolling1).2 = true ∧
      (WalkForwardBacktester.generateFolds data10 cfgRolling1).1.map
          (fun f => (f.trainStartIdx, f.trainEndIdx, f.testStartIdx, f.testEndIdx)) =
        [(0, 4, 5, 6), (1, 5, 6, 7), (2, 6, 7, 8), (3, 7, 8, 9)] ∧
      (WalkForwardBacktester.generateFolds data10 cfgRolling1).1.map
          (fun f => (f.trainRounds, f.testRounds)) =
        [(jsSlice data10 0 5, jsSlice data10 5 7),
          (jsSlice data10 1 6, jsSlice data10 6 8),
          (jsSlice data10 2 7, jsSlice data10 7 9),
          (jsSlice data10 3 8, jsSlice data10 8 10)]) ∧
    ∀ (d : List DrawRecord) (c : WalkForwardConfig),
      WalkForwardBacktester.generateFolds d c =
        WalkForwardBacktester.generateFolds d c :=
  ⟨by decide, fun _ _ => rfl⟩

/-- C4 (code bug evidence): with `windowType='anchored'` the implementation
still sets `trainStartIdx = startIdx` (both branches of its `windowType`
match compute the same bounds), so the anchored train start advances
`0, 1, 2, 3` instead of staying `0`: the second anchored fold already has
`trainStartIdx = 1 ≠ 0`, contradicting the code's own comment that the
anchored start point is fixed. -/
theorem generateFolds_anchored_trainStart_advances :
    (WalkForwardBacktester.generateFolds data10 cfgAnchored1).1.map
        (fun f => f.trainStartIdx) = [0, 1, 2, 3] ∧
      (∃ f ∈ (WalkForwardBacktester.generateFolds data10 cfgAnchored1).1,
        f.trainStartIdx ≠ 0) ∧
      WalkForwardBacktester.generateFolds data10 cfgAnchored1 =
        WalkForwardBacktester.generateFolds data10 cfgRolling1 := by
  refine ⟨by decide, ⟨?_, ?_, ?_⟩, by decide⟩
  · exact { trainStartIdx := 1, trainEndIdx := 5, testStartIdx := 6, testEndIdx := 7
            trainRounds := jsSlice data10 1 6, testRounds := jsSlice data10 6 8 }
  · decide
  · decide

/-- C5 (code bug evidence): with `stepSize = 0` on a sequence where the first
fold fits (10 rounds, `trainSize=5`, `testSize=2`, `minTrainSize=5`), the
`generateFolds` loop never exits: for every amount of fuel the loop is still
running (flag `false`) and it has pushed one more copy of the same fold per
iteration — no `InvalidConfig` error is ever raised, the call simply never
returns. -/
theorem generateFolds_stepSize_zero_diverges :
    ∀ (fuel : ℕ) (acc : List Fold),
      (WalkForwardBacktester.generateFoldsAux data10 cfgStep0 fuel 0 acc).2 = false ∧
        (WalkForwardBacktester.generateFoldsAux data10 cfgStep0 fuel 0 acc).1.length =
          acc.length + fuel := by
  intro fuel
  induction fuel with
  | zero =>
    intro acc
    exact ⟨rfl, by simp [WalkForwardBacktester.generateFoldsAux]⟩
  | succ n ih =>
    intro acc
    have hstep :
        WalkForwardBacktester.generateFoldsAux data10 cfgStep0 (n + 1) 0 acc =
          WalkForwardBacktester.generateFoldsAux data10 cfgStep0 n 0
            ({ trainStartIdx := 0, trainEndIdx := 4, testStartIdx := 5, testEndIdx := 6
               trainRounds := jsSlice data10 0 5
               testRounds := jsSlice data10 5 7 } :: acc) := rfl
    rw [hstep]
    obtain ⟨hflag, hlen⟩ := ih
      ({ trainStartIdx := 0, trainEndIdx := 4, testStartIdx := 5, testEndIdx := 6
         trainRounds := jsSlice data10 0 5
         testRounds := jsSlice data10 5 7 } :: acc)
    refine ⟨hflag, ?_⟩
    rw [hlen]
    simp only [List.length_cons]
    omega

/-- One entry of an analysis-object prediction list (`predictions.predictions`
elements, `{ number, rank, score }`, the last two possibly absent). -/
structure PredEntry where
  number : ℤ
  rank : Option ℚ
  score : Option ℚ
deriving DecidableEq, Repr

/-- The prediction formats accepted by `evaluateFold`: a plain array of
numbers, an analysis object carrying a `predictions` list, or anything else
(which the code only warns about, leaving the prediction map empty). -/
inductive Predictions where
  | nums (l : List ℤ)
  | analyzed (preds : List PredEntry)
  | other
deriving DecidableEq, Repr

/-- JavaScript `a || b` on an optional number: `b` when `a` is absent or `0`. -/
def jsOrQ (a : Option ℚ) (b : ℚ) : ℚ :=
  match a with
  | some v => if v = 0 then b else v
  | none => b

/-- The assignments performed on the `predictionMap` object, in program
order; a later assignment to the same key overwrites the earlier one. -/
def predictionEntries : Predictions → List (ℤ × ℚ)
  | Predictions.nums l => l.enum.map (fun p => (p.2, (p.1 : ℚ) + 1))
  | Predictions.analyzed preds =>
    preds.map (fun p => (p.number, jsOrQ p.rank (jsOrQ p.score 0)))
  | Predictions.other => []

/-- Reading `predictionMap[num]`: the value of the last assignment to `num`. -/
def lookupEntry (entries : List (ℤ × ℚ)) (num : ℤ) : Option ℚ :=
  entries.reverse.lookup num

/-- `Object.keys` on a map with integer-like keys: the non-negative keys in
ascending numeric order, then the remaining keys in insertion order. -/
def objectNumericKeys (entries : List (ℤ × ℚ)) : List ℤ :=
  let ks := ((entries.map Prod.fst).reverse.dedup).reverse
  (List.insertionSort (fun a b => a ≤ b) (ks.filter (fun k => 0 ≤ k))) ++
    ks.filter (fun k => k < 0)

/-- One per-round evaluation record pushed by `evaluateFold`. -/
structure EvalRecord where
  round : ℤ
  predicted : List ℤ
  actual : List ℤ
  bonus : ℤ
  hits : ℕ
  actualRanks : List ℚ
  avgRank : ℚ
deriving DecidableEq, Repr

/-- `WalkForwardBacktester.countHits`. -/
def countHits (predicted actual : List ℤ) : ℕ :=
  (predicted.filter (fun p => actual.contains p)).length

/-- The evaluation of a single test round against a fixed prediction value:
the body of the `fold.testRounds.forEach` loop of `evaluateFold`. -/
def evalRound (preds : Predictions) (t : DrawRecord) : EvalRecord :=
  let entries := predictionEntries preds
  let predictedNumbers := objectNumericKeys entries
  let actual := t.numbers
  let hits := countHits predictedNumbers actual
  let actualRanks := actual.map (fun num =>
    match lookupEntry entries num with
    | some v => if v = 0 then 999 else v
    | none => 999)
  let avgRank := actualRanks.sum / (actualRanks.length : ℚ)
  { round := t.round, predicted := predictedNumbers, actual := actual
    bonus := t.bonus, hits := hits, actualRanks := actualRanks, avgRank := avgRank }

/-- Round number of the first record of a slice (`slice[0].round`). -/
def headRound (l : List DrawRecord) : ℤ :=
  (l.head?.map (fun r => r.round)).getD 0

/-- Round number of the last record of a slice (`slice[slice.length-1].round`). -/
def lastRound (l : List DrawRecord) : ℤ :=
  (l.getLast?.map (fun r => r.round)).getD 0

/-- The per-fold result object of `evaluateFold` / of the `catch` branch of
`run` (`{ foldIndex, trainStart, trainEnd, testStart, testEnd, results }`,
plus `error` for a failed fold). -/
structure FoldResult where
  foldIndex : ℕ
  trainStart : ℤ
  trainEnd : ℤ
  testStart : ℤ
  testEnd : ℤ
  results : List EvalRecord
  error : Option String
deriving DecidableEq, Repr

namespace WalkForwardBacktester

/-- `WalkForwardBacktester.evaluateFold`: the prediction map is built once,
then every test round is scored against it.  (The produced object has no
`index` field, so `fold.index || 0` is always `0`.) -/
def evaluateFold (fold : Fold) (preds : Predictions) : FoldResult :=
  let entries := predictionEntries preds
  let predictedNumbers := objectNumericKeys entries
  let results := fold.testRounds.map (fun t =>
    let actual := t.numbers
    let hits := countHits predictedNumbers actual
    let actualRanks := actual.map (fun num =>
      match lookupEntry entries num with
      | some v => if v = 0 then 999 else v
      | none => 999)
    let avgRank := actualRanks.sum / (actualRanks.length : ℚ)
    ({ round := t.round, predicted := predictedNumbers, actual := actual
       bonus := t.bonus, hits := hits, actualRanks := actualRanks
       avgRank := avgRank } : EvalRecord))
  { foldIndex := 0
    trainStart := headRound fold.trainRounds
    trainEnd := lastRound fold.trainRounds
    testStart := headRound fold.testRounds
    testEnd := lastRound fold.testRounds
    results := results
    error := none }

end WalkForwardBacktester

/-- The hard-coded `RANDOM_BASELINES` table of the metrics module
(`{3: 0.0177, 4: 0.000969, 5: 0.0000184, 6: 0.00000007}`). -/
def RANDOM_BASELINES (k : ℕ) : ℚ :=
  match k with
  | 3 => 177 / 10000
  | 4 => 969 / 1000000
  | 5 => 184 / 10000000
  | 6 => 7 / 100000000
  | _ => 0

/-- The performance-metrics object returned by `calculateMetrics`.  (The
`sharpeLikeRatio` field is omitted from the embedding: it is an irrational
square-root quantity no claim refers to.) -/
structure Metrics where
  hitRates : List (ℕ × ℚ)
  averageHits : ℚ
  maxHits : ℕ
  averageRank : Option ℚ
  mrr : Option ℚ
  lifts : List (ℕ × Option ℚ)
  drawdown : ℕ
  distribution : List (ℕ × ℕ)
  totalRounds : ℕ
deriving DecidableEq, Repr

/-- Mean of a list of rationals (`reduce((a,b) => a+b) / length`). -/
def ratMean (l : List ℚ) : ℚ :=
  l.sum / (l.length : ℚ)

/-- `calculateMetrics` (metrics module in main.js): `null` on an empty input,
otherwise hit distribution, hit rates for `k = 3..6`, average/max hits,
average rank, MRR, lift against the hard-coded baselines, drawdown. -/
def calculateMetrics (results : List EvalRecord) : Option Metrics :=
  if results.isEmpty then none
  else
    let hitsArray := results.map (fun r => r.hits)
    let ranked := results.filter (fun r => ¬ r.actualRanks.isEmpty)
    let ranksArray := ranked.map (fun r =>
      if r.avgRank = 0 then ratMean r.actualRanks else r.avgRank)
    let reciprocalRanks := ranked.map (fun r => 1 / ((r.actualRanks.min?).getD 0))
    let hitRateAt := fun (k : ℕ) =>
      ((hitsArray.countP (fun h => decide (k ≤ h)) : ℚ) / (results.length : ℚ))
    let dkeys := List.insertionSort (fun a b => a ≤ b)
      ((((List.range 7) ++ hitsArray.filter (fun h => decide (6 < h))).reverse.dedup).reverse)
    let dd := hitsArray.foldl
      (fun (p : ℕ × ℕ) h => if h < 3 then (max p.1 (p.2 + 1), p.2 + 1) else (p.1, 0))
      (0, 0)
    some
      { hitRates := (List.range' 3 4).map (fun k => (k, hitRateAt k))
        averageHits := (hitsArray.map (fun h => (h : ℚ))).sum / (hitsArray.length : ℚ)
        maxHits := hitsArray.foldr max 0
        averageRank := if ranksArray.isEmpty then none else some (ratMean ranksArray)
        mrr := if reciprocalRanks.isEmpty then none else some (ratMean reciprocalRanks)
        lifts := (List.range' 3 4).map (fun k =>
          (k, if 0 < RANDOM_BASELINES k then some (hitRateAt k / RANDOM_BASELINES k)
              else none))
        drawdown := dd.1
        distribution := dkeys.map (fun h => (h, hitsArray.countP (fun x => decide (x = h))))
        totalRounds := results.length }

namespace WalkForwardBacktester

/-- `WalkForwardBacktester.aggregateMetrics`: flatten the results of the
folds that have a non-empty result list, return `null` when nothing is left,
otherwise hand the flattened records to `calculateMetrics` (which is always
defined in the bundle, so the inline fallback branch is dead code). -/
def aggregateMetrics (foldResults : List FoldResult) : Option Metrics :=
  let allResults :=
    ((foldResults.filter (fun f => 0 < f.results.length)).map (fun f => f.results)).flatten
  if allResults.isEmpty then none
  else calculateMetrics allResults

end WalkForwardBacktester

/-- A strategy function `(trainData, testRounds) => predictions`, which may
throw (`Except.error` carries the thrown message). -/
def Strategy : Type :=
  List DrawRecord → List DrawRecord → Except String Predictions

/-- The `WalkForwardResult` object returned by `run`. -/
structure RunResult where
  foldResults : List FoldResult
  aggregateMetrics : Option Metrics
  config : WalkForwardConfig
  totalFolds : ℕ
deriving DecidableEq, Repr

namespace WalkForwardBacktester

/-- The body of the `folds.forEach` loop of `run`: call the strategy on the
fold's train slice (and test rounds), evaluate on success, and on a thrown
error record the fold as failed with an empty result list and the message. -/
def processFold (strategy : Strategy) (idx : ℕ) (fold : Fold) : FoldResult :=
  match strategy fold.trainRounds fold.testRounds with
  | Except.ok preds => evaluateFold fold preds
  | Except.error msg =>
    { foldIndex := idx
      trainStart := headRound fold.trainRounds
      trainEnd := lastRound fold.trainRounds
      testStart := headRound fold.testRounds
      testEnd := lastRound fold.testRounds
      results := []
      error := some msg }

/-- The indexed `folds.forEach` loop of `run`. -/
def processFolds (strategy : Strategy) : ℕ → List Fold → List FoldResult
  | _, [] => []
  | idx, f :: fs => processFold strategy idx f :: processFolds strategy (idx + 1) fs

/-- `WalkForwardBacktester.run`, instrumented: the second component records,
in order, the argument pair handed to the strategy function at its single
call site — one entry per fold. -/
def runLogged (data : List DrawRecord) (cfg : WalkForwardConfig)
    (strategy : Strategy) :
    RunResult × List (List DrawRecord × List DrawRecord) :=
  let folds := (generateFolds data cfg).1
  let callArgs := folds.map (fun f => (f.trainRounds, f.testRounds))
  let foldResults := processFolds strategy 0 folds
  ({ foldResults := foldResults
     aggregateMetrics := aggregateMetrics foldResults
     config := cfg
     totalFolds := folds.length }, callArgs)

theorem processFolds_length (strategy : Strategy) :
    ∀ (base : ℕ) (folds : List Fold),
      (processFolds strategy base folds).length = folds.length := by
  intro base folds
  induction folds generalizing base with
  | nil => rfl
  | cons f fs ih => simp [processFolds, ih]

theorem processFolds_get? (strategy : Strategy) :
    ∀ (base idx : ℕ) (folds : List Fold),
      (processFolds strategy base folds).get? idx =
        (folds.get? idx).map (fun f => processFold strategy (base + idx) f) := by
  intro base idx folds
  induction folds generalizing base idx with
  | nil => simp [processFolds]
  | cons f fs ih =>
    cases idx with
    | zero => simp [processFolds]
    | succ n =>
      simp only [processFolds, List.get?_cons_succ, ih (base + 1) n]
      have : base + 1 + n = base + (n + 1) := by omega
      rw [this]

end WalkForwardBacktester

/-- A 7-element draw sequence with rounds 1..7 (yields exactly one rolling
fold under `cfgRolling1`: train indices 0..4, test indices 5..6). -/
def data7 : List DrawRecord :=
  (List.range 7).map (fun i => mkRec ((i : ℤ) + 1))

/-- A strategy that ignores its input and predicts the numbers 1..6. -/
def stratNums : Strategy :=
  fun _ _ => Except.ok (Predictions.nums [1, 2, 3, 4, 5, 6])

/-- A strategy that always throws. -/
def stratFail : Strategy :=
  fun _ _ => Except.error "boom"

/-- The single fold generated from `data7` under `cfgRolling1`. -/
def fold7 : Fold :=
  { trainStartIdx := 0, trainEndIdx := 4, testStartIdx := 5, testEndIdx := 6
    trainRounds := jsSlice data7 0 5, testRounds := jsSlice data7 5 7 }

/-- C2 (counterexample): the strategy is NOT handed only the fold's train
slice.  On the 7-round sequence the single fold's test range starts at index
5, whose record is round 6 — and that very record is part of the arguments
handed to the strategy (it is passed the whole `fold.testRounds` array as the
second argument). -/
theorem run_hands_test_records_to_strategy :
    ((WalkForwardBacktester.generateFolds data7 cfgRolling1).1.map
        (fun f => f.testStartIdx) = [5]) ∧
      jsSlice data7 5 6 = [mkRec 6] ∧
      ∃ call ∈ (WalkForwardBacktester.runLogged data7 cfgRolling1 stratNums).2,
        mkRec 6 ∈ call.1 ++ call.2 := by
  decide

/-- C2 (amended): `run` invokes the strategy exactly once per fold, handing
it the fold's train slice as first argument and the fold's test-round records
as second argument; the single prediction value it returns for a fold is then
compared, unchanged, against every round of that fold's test range — the
strategy is not re-run per test round. -/
theorem run_strategy_once_per_fold
    (data : List DrawRecord) (cfg : WalkForwardConfig) (strategy : Strategy)
    (idx : ℕ) (fold : Fold) (preds : Predictions)
    (hfold : (WalkForwardBacktester.generateFolds data cfg).1.get? idx = some fold)
    (hok : strategy fold.trainRounds fold.testRounds = Except.ok preds) :
    (WalkForwardBacktester.runLogged data cfg strategy).2.length =
        (WalkForwardBacktester.generateFolds data cfg).1.length ∧
      (WalkForwardBacktester.runLogged data cfg strategy).2.get? idx =
        some (fold.trainRounds, fold.testRounds) ∧
      (WalkForwardBacktester.runLogged data cfg strategy).1.foldResults.get? idx =
        some (WalkForwardBacktester.evaluateFold fold preds) ∧
      (WalkForwardBacktester.evaluateFold fold preds).results =
        fold.testRounds.map (evalRound preds) := by
  refine ⟨?_, ?_, ?_, ?_⟩
  · simp [WalkForwardBacktester.runLogged]
  · have hlog : (WalkForwardBacktester.runLogged data cfg strategy).2 =
        (WalkForwardBacktester.generateFolds data cfg).1.map
          (fun f => (f.trainRounds, f.testRounds)) := rfl
    rw [hlog, List.get?_map, hfold]
    rfl
  · have hfr : (WalkForwardBacktester.runLogged data cfg strategy).1.foldResults =
        WalkForwardBacktester.processFolds strategy 0
          (WalkForwardBacktester.generateFolds data cfg).1 := rfl
    rw [hfr, WalkForwardBacktester.processFolds_get?, hfold]
    simp [WalkForwardBacktester.processFold, hok]
  · rfl

/-- Witness for C2 (amended), at the concrete 7-round sequence with the
constant strategy. -/
theorem run_strategy_once_per_fold_witness :
    (WalkForwardBacktester.runLogged data7 cfgRolling1 stratNums).2.length =
        (WalkForwardBacktester.generateFolds data7 cfgRolling1).1.length ∧
      (WalkForwardBacktester.runLogged data7 cfgRolling1 stratNums).2.get? 0 =
        some (fold7.trainRounds, fold7.testRounds) ∧
      (WalkForwardBacktester.runLogged data7 cfgRolling1 stratNums).1.foldResults.get? 0 =
        some (WalkForwardBacktester.evaluateFold fold7 (Predictions.nums [1, 2, 3, 4, 5, 6])) ∧
      (WalkForwardBacktester.evaluateFold fold7 (Predictions.nums [1, 2, 3, 4, 5, 6])).results =
        fold7.testRounds.map (evalRound (Predictions.nums [1, 2, 3, 4, 5, 6])) :=
  run_strategy_once_per_fold data7 cfgRolling1 stratNums 0 fold7
    (Predictions.nums [1, 2, 3, 4, 5, 6]) (by decide) rfl

theorem filter_nonempty_results_flatten (l : List FoldResult) :
    ((l.filter (fun fr => 0 < fr.results.length)).map (fun fr => fr.results)).flatten =
      (l.map (fun fr => fr.results)).flatten := by
  induction l with
  | nil => rfl
  | cons fr rest ih =>
    cases hnil : fr.results with
    | nil => simp [List.filter_cons, hnil, ih]
    | cons a as => simp [List.filter_cons, hnil, ih]

theorem filter_error_none_flatten (l : List FoldResult)
    (h : ∀ fr ∈ l, fr.error ≠ none → fr.results = []) :
    ((l.filter (fun fr => fr.error.isNone)).map (fun fr => fr.results)).flatten =
      (l.map (fun fr => fr.results)).flatten := by
  induction l with
  | nil => rfl
  | cons fr rest ih =>
    have hrest : ∀ g ∈ rest, g.error ≠ none → g.results = [] :=
      fun g hg => h g (List.mem_cons_of_mem fr hg)
    cases herr : fr.error with
    | none => simp [List.filter_cons, herr, ih hrest]
    | some msg =>
      have hnil : fr.results = [] :=
        h fr (List.mem_cons_self fr rest) (by simp [herr])
      simp [List.filter_cons, herr, hnil, ih hrest]

theorem processFold_error_results (strategy : Strategy) (idx : ℕ) (fold : Fold) :
    (WalkForwardBacktester.processFold strategy idx fold).error ≠ none →
    (WalkForwardBacktester.processFold strategy idx fold).results = [] := by
  unfold WalkForwardBacktester.processFold
  cases strategy fold.trainRounds fold.testRounds with
  | ok preds => intro h; exact absurd rfl h
  | error msg => intro _; rfl

theorem processFolds_error_results (strategy : Strategy) :
    ∀ (base : ℕ) (folds : List Fold) (fr : FoldResult),
      fr ∈ WalkForwardBacktester.processFolds strategy base folds →
      fr.error ≠ none → fr.results = [] := by
  intro base folds
  induction folds generalizing base with
  | nil => intro fr hfr; cases hfr
  | cons f fs ih =>
    intro fr hfr herr
    rcases List.mem_cons.mp hfr with hfr | hfr
    · subst hfr
      exact processFold_error_results strategy base f herr
    · exact ih (base + 1) fr hfr herr

theorem aggregateMetrics_eq_nonfailed (l : List FoldResult)
    (h : ∀ fr ∈ l, fr.error ≠ none → fr.results = []) :
    WalkForwardBacktester.aggregateMetrics l =
      (let recs := ((l.filter (fun fr => fr.error.isNone)).map (fun fr => fr.results)).flatten
       if recs.isEmpty then none else calculateMetrics recs) := by
  have h1 := filter_nonempty_results_flatten l
  have h2 := filter_error_none_flatten l h
  simp only [WalkForwardBacktester.aggregateMetrics, h1, h2]

/-- C7: a strategy that throws on a fold does not abort the run — every fold
is still processed (one result per fold), the failing fold is recorded with
an empty result list and the captured message, and the aggregated metrics are
computed over exactly the flattened per-round records of the non-failed
folds. -/
theorem run_recovers_from_strategy_failure
    (data : List DrawRecord) (cfg : WalkForwardConfig) (strategy : Strategy)
    (idx : ℕ) (fold : Fold) (msg : String)
    (hfold : (WalkForwardBacktester.generateFolds data cfg).1.get? idx = some fold)
    (herr : strategy fold.trainRounds fold.testRounds = Except.error msg) :
    (WalkForwardBacktester.runLogged data cfg strategy).1.foldResults.length =
        (WalkForwardBacktester.generateFolds data cfg).1.length ∧
      (WalkForwardBacktester.runLogged data cfg strategy).1.foldResults.get? idx =
        some
          { foldIndex := idx
            trainStart := headRound fold.trainRounds
            trainEnd := lastRound fold.trainRounds
            testStart := headRound fold.testRounds
            testEnd := lastRound fold.testRounds
            results := []
            error := some msg } ∧
      (WalkForwardBacktester.runLogged data cfg strategy).1.aggregateMetrics =
        (let recs :=
          (((WalkForwardBacktester.runLogged data cfg strategy).1.foldResults.filter
              (fun fr => fr.error.isNone)).map (fun fr => fr.results)).flatten
        if recs.isEmpty then none else calculateMetrics recs) := by
  refine ⟨?_, ?_, ?_⟩
  · simp [WalkForwardBacktester.runLogged, WalkForwardBacktester.processFolds_length]
  · have hfr : (WalkForwardBacktester.runLogged data cfg strategy).1.foldResults =
        WalkForwardBacktester.processFolds strategy 0
          (WalkForwardBacktester.generateFolds data cfg).1 := rfl
    rw [hfr, WalkForwardBacktester.processFolds_get?, hfold]
    simp [WalkForwardBacktester.processFold, herr]
  · have hinv : ∀ fr ∈ WalkForwardBacktester.processFolds strategy 0
        (WalkForwardBacktester.generateFolds data cfg).1,
        fr.error ≠ none → fr.results = [] :=
      fun fr hfr => processFolds_error_results strategy 0 _ fr hfr
    exact aggregateMetrics_eq_nonfailed _ hinv

/-- Witness for C7 at the concrete 7-round sequence with the always-throwing
strategy. -/
theorem run_recovers_from_strategy_failure_witness :
    (WalkForwardBacktester.runLogged data7 cfgRolling1 stratFail).1.foldResults.length =
        (WalkForwardBacktester.generateFolds data7 cfgRolling1).1.length ∧
      (WalkForwardBacktester.runLogged data7 cfgRolling1 stratFail).1.foldResults.get? 0 =
        some
          { foldIndex := 0
            trainStart := headRound fold7.trainRounds
            trainEnd := lastRound fold7.trainRounds
            testStart := headRound fold7.testRounds
            testEnd := lastRound fold7.testRounds
            results := []
            error := some "boom" } ∧
      (WalkForwardBacktester.runLogged data7 cfgRolling1 stratFail).1.aggregateMetrics =
        (let recs :=
          (((WalkForwardBacktester.runLogged data7 cfgRolling1 stratFail).1.foldResults.filter
              (fun fr => fr.error.isNone)).map (fun fr => fr.results)).flatten
        if recs.isEmpty then none else calculateMetrics recs) :=
  run_recovers_from_strategy_failure data7 cfgRolling1 stratFail 0 fold7 "boom"
    (by decide) rfl

/-- The hit rate at threshold `k`: the fraction of evaluation records with at
least `k` hits. -/
def hitRate (results : List EvalRecord) (k : ℕ) : ℚ :=
  ((results.countP (fun r => decide (k ≤ r.hits))) : ℚ) / (results.length : ℚ)

namespace AdvancedBacktester

/-- `AdvancedBacktester.combination`: iterative multiplicative binomial
coefficient; `0` when `k > n` or `k < 0`, `1` when `k = 0` or `k = n`. -/
def combination (n k : ℤ) : ℚ :=
  if k > n ∨ k < 0 then 0
  else if k = 0 ∨ k = n then 1
  else (List.range k.toNat).foldl
    (fun result i => result * ((n : ℚ) - (i : ℚ)) / ((i : ℚ) + 1)) 1

/-- `AdvancedBacktester.hypergeometricPMF`. -/
def hypergeometricPMF (k N K n : ℤ) : ℚ :=
  combination K k * combination (N - K) (n - k) / combination N n

/-- `AdvancedBacktester.calculateRandomHit3Plus`: the hypergeometric tail
`P(X >= 3)` for `X ~ Hypergeometric(45, 6, topN)` — the repository's own
`hypergeometricAtLeast(3, 45, 6, topN)`. -/
def calculateRandomHit3Plus (topN : ℤ) : ℚ :=
  ((List.range ((min 6 topN - 3 + 1).toNat)).map
    (fun j => hypergeometricPMF ((j : ℤ) + 3) 45 6 topN)).sum

end AdvancedBacktester

/-- A pipeline-produced evaluation record: 6 predicted numbers, exactly 3 of
which appear in the actual outcome. -/
def c6Record : EvalRecord :=
  evalRound (Predictions.nums [1, 2, 3, 4, 5, 6])
    { round := 8, numbers := [1, 2, 3, 10, 11, 12], bonus := 13 }

/-- A throw-away `Metrics` value used to state witnesses about
`Option Metrics` results. -/
def metricsDefault : Metrics :=
  { hitRates := [], averageHits := 0, maxHits := 0, averageRank := none
    mrr := none, lifts := [], drawdown := 0, distribution := [], totalRounds := 0 }

theorem beqSimps (a b : ℕ) : (a == b) = decide (a = b) := by
  by_cases h : a = b
  · subst h; simp
  · simp [h]

theorem calculateMetrics_lifts_eq (results : List EvalRecord)
    (h : results.isEmpty = false) :
    (calculateMetrics results).map (fun m => m.lifts) =
      some ((List.range' 3 4).map (fun k =>
        (k, if 0 < RANDOM_BASELINES k
            then some (hitRate results k / RANDOM_BASELINES k) else none))) := by
  unfold calculateMetrics
  simp only [h, Bool.false_eq_true, if_false, Option.map_some', Option.some.injEq]
  refine List.map_congr_left ?_
  intro k _
  have hcount :
      (results.map (fun r => r.hits)).countP (fun h => decide (k ≤ h)) =
        results.countP (fun r => decide (k ≤ r.hits)) := by
    rw [List.countP_map]
    rfl
  simp only [hitRate, hcount]

/-- C6 (counterexample): the aggregated `lift@3` is NOT
`hitRate@3 / hypergeometricAtLeast(3, 45, 6, predictionSize)`.  For a single
record predicting 6 numbers of which exactly 3 hit, the code reports
`lift@3 = 1 / 0.0177 = 10000/177`, while the hypergeometric tail for a sample
of 6 from 45 with 6 winning values gives a different ratio. -/
theorem calculateMetrics_lift_not_hypergeometric :
    (calculateMetrics [c6Record]).map (fun m => m.lifts.lookup 3) =
        some (some (some (10000 / 177))) ∧
      (c6Record.predicted.length : ℤ) = 6 ∧
      hitRate [c6Record] 3 = 1 ∧
      hitRate [c6Record] 3 / AdvancedBacktester.calculateRandomHit3Plus 6 ≠
        (10000 / 177 : ℚ) := by
  have hrate : hitRate [c6Record] 3 = 1 := by
    have hc : [c6Record].countP (fun r => decide (3 ≤ r.hits)) = 1 := by decide
    rw [hitRate, hc]
    norm_num
  have hlifts := calculateMetrics_lifts_eq [c6Record] rfl
  have hrange : List.range' 3 4 = [3, 4, 5, 6] := by decide
  rw [hrange] at hlifts
  have hhyper : AdvancedBacktester.calculateRandomHit3Plus 6 = 6471 / 271502 := by
    have hr4 : List.range ((min (6 : ℤ) 6 - 3 + 1).toNat) = [0, 1, 2, 3] := by decide
    rw [AdvancedBacktester.calculateRandomHit3Plus, hr4]
    have hr3 : List.range ((3 : ℤ)).toNat = [0, 1, 2] := by decide
    have hr45 : List.range ((4 : ℤ)).toNat = [0, 1, 2, 3] := by decide
    have hr5 : List.range ((5 : ℤ)).toNat = [0, 1, 2, 3, 4] := by decide
    have hr6 : List.range ((6 : ℤ)).toNat = [0, 1, 2, 3, 4, 5] := by decide
    simp only [List.map_cons, List.map_nil, AdvancedBacktester.hypergeometricPMF,
      AdvancedBacktester.combination]
    norm_num [hr3, hr45, hr5, hr6, List.foldl, List.sum_cons, List.sum_nil]
  refine ⟨?_, by decide, hrate, ?_⟩
  · cases hcm : calculateMetrics [c6Record] with
    | none => rw [hcm] at hlifts; simp at hlifts
    | some m =>
      rw [hcm] at hlifts
      simp only [Option.map_some', Option.some.injEq] at hlifts
      rw [Option.map_some', Option.some.injEq, hlifts]
      norm_num [List.lookup, RANDOM_BASELINES, hrate]
  · rw [hrate, hhyper]
    norm_num

/-- C6 (amended): for every non-empty record list and every `k` in
`{3,4,5,6}`, the aggregated `lift@k` equals `hitRate@k` divided by the
hard-coded constant `RANDOM_BASELINES[k]` (independent of the prediction
size), `null` only if that constant were non-positive; and `lift@k = 1`
exactly when the observed `hitRate@k` equals the constant. -/
theorem calculateMetrics_lifts_use_fixed_baselines
    (results : List EvalRecord) (m : Metrics) (k : ℕ)
    (hm : calculateMetrics results = some m) (hk : k ∈ [3, 4, 5, 6]) :
    m.lifts.lookup k = some (some (hitRate results k / RANDOM_BASELINES k)) ∧
      ((hitRate results k = RANDOM_BASELINES k) ↔
        m.lifts.lookup k = some (some 1)) := by
  have hne : results.isEmpty = false := by
    cases h : results.isEmpty
    · rfl
    · unfold calculateMetrics at hm
      rw [h] at hm
      simp at hm
  have hlifts : m.lifts = (List.range' 3 4).map (fun k =>
      (k, if 0 < RANDOM_BASELINES k
          then some (hitRate results k / RANDOM_BASELINES k) else none)) := by
    have := calculateMetrics_lifts_eq results hne
    rw [hm] at this
    simpa using this
  rw [hlifts]
  have hrange : List.range' 3 4 = [3, 4, 5, 6] := by decide
  rw [hrange]
  fin_cases hk
  all_goals
    refine ⟨by norm_num [List.lookup, RANDOM_BASELINES, beqSimps], ?_⟩
  all_goals
    norm_num [List.lookup, RANDOM_BASELINES, beqSimps]
  all_goals
    exact (div_eq_one_iff_eq (by norm_num)).symm

/-- Witness for C6 (amended) at the single 3-hit record and `k = 3`. -/
theorem calculateMetrics_lifts_use_fixed_baselines_witness :
    ((calculateMetrics [c6Record]).getD metricsDefault).lifts.lookup 3 =
        some (some (hitRate [c6Record] 3 / RANDOM_BASELINES 3)) ∧
      ((hitRate [c6Record] 3 = RANDOM_BASELINES 3) ↔
        ((calculateMetrics [c6Record]).getD metricsDefault).lifts.lookup 3 =
          some (some 1)) :=
  calculateMetrics_lifts_use_fixed_baselines [c6Record]
    ((calculateMetrics [c6Record]).getD metricsDefault) 3
    (by
      cases hcm : calculateMetrics [c6Record] with
      | none =>
        unfold calculateMetrics at hcm
        simp at hcm
      | some m => rfl)
    (by decide)

/-- One scored candidate of a calibration prediction (`{number, probability}`,
probability on the 0–100 scale). -/
structure ScoredNumber where
  number : ℤ
  probability : ℚ
deriving DecidableEq, Repr

/-- One calibration data point handed to `analyzeCalibration`
(`{round, scores, actual}`). -/
structure CalibPrediction where
  round : ℤ
  scores : List ScoredNumber
  actual : List ℤ
deriving DecidableEq, Repr

namespace ProbabilityScorer

/-- The flattened stream of `(probability, hit-indicator)` pairs that the two
nested `forEach` loops of `analyzeCalibration` iterate over. -/
def candidatePairs (preds : List CalibPrediction) : List (ℚ × ℚ) :=
  (preds.map (fun p => p.scores.map (fun s =>
    (s.probability, if s.number ∈ p.actual then (1 : ℚ) else 0)))).flatten

/-- `Math.min(numBins - 1, Math.floor(probability / 10))`. -/
def binIdx (q : ℚ) : ℤ :=
  min 9 ⌊q / 10⌋

/-- The pairs falling into bin `i`. -/
def binPairs (preds : List CalibPrediction) (i : ℤ) : List (ℚ × ℚ) :=
  (candidatePairs preds).filter (fun pr => binIdx pr.1 = i)

/-- `bins[i].totalPredictions`. -/
def binCount (preds : List CalibPrediction) (i : ℤ) : ℕ :=
  (binPairs preds i).length

/-- The probability mass accumulated into `bins[i].avgConfidence` before the
final division. -/
def binConfSum (preds : List CalibPrediction) (i : ℤ) : ℚ :=
  ((binPairs preds i).map Prod.fst).sum

/-- `bins[i].actualHits`. -/
def binHits (preds : List CalibPrediction) (i : ℤ) : ℚ :=
  ((binPairs preds i).map Prod.snd).sum

/-- `bins[i].avgConfidence` after the per-bin division (left `0` for an empty
bin). -/
def avgConfidence (preds : List CalibPrediction) (i : ℤ) : ℚ :=
  if 0 < binCount preds i then binConfSum preds i / (binCount preds i : ℚ) else 0

/-- `bins[i].accuracy = actualHits / totalPredictions * 100` (left `0` for an
empty bin). -/
def accuracy (preds : List CalibPrediction) (i : ℤ) : ℚ :=
  if 0 < binCount preds i then binHits preds i / (binCount preds i : ℚ) * 100 else 0

/-- `totalPredictions = bins.reduce((sum, b) => sum + b.totalPredictions, 0)`. -/
def totalPredictions (preds : List CalibPrediction) : ℕ :=
  ∑ i ∈ Finset.range 10, binCount preds (i : ℤ)

/-- The ECE accumulation loop over the ten bins. -/
def ece (preds : List CalibPrediction) : ℚ :=
  ∑ i ∈ Finset.range 10,
    (if 0 < binCount preds (i : ℤ) then
      ((binCount preds (i : ℤ) : ℚ) / (totalPredictions preds : ℚ)) *
        |avgConfidence preds (i : ℤ) - accuracy preds (i : ℤ)| else 0)

/-- The Brier-score loop: mean of `(probability/100 - actual)^2` over every
candidate-round pair, `0` when there are no pairs. -/
def brierScore (preds : List CalibPrediction) : ℚ :=
  if 0 < (candidatePairs preds).length then
    (((candidatePairs preds).map (fun pr => (pr.1 / 100 - pr.2) ^ 2)).sum) /
      ((candidatePairs preds).length : ℚ)
  else 0

/-- One entry of the returned `bins` array (the `range` label string is
omitted; `min`/`max` are its numeric endpoints). -/
structure CalibBin where
  lo : ℚ
  hi : ℚ
  totalPredictions : ℕ
  actualHits : ℚ
  avgConfidence : ℚ
  accuracy : ℚ
deriving DecidableEq, Repr

/-- The object returned by `analyzeCalibration`. -/
structure CalibrationResult where
  bins : List CalibBin
  ece : ℚ
  brierScore : ℚ
  totalPredictions : ℕ
deriving DecidableEq, Repr

/-- `ProbabilityScorer.analyzeCalibration`. -/
def analyzeCalibration (preds : List CalibPrediction) : CalibrationResult :=
  { bins := (List.range 10).map (fun i =>
      { lo := ((10 * i : ℕ) : ℚ), hi := ((10 * (i + 1) : ℕ) : ℚ)
        totalPredictions := binCount preds (i : ℤ)
        actualHits := binHits preds (i : ℤ)
        avgConfidence := avgConfidence preds (i : ℤ)
        accuracy := accuracy preds (i : ℤ) })
    ece := ece preds
    brierScore := brierScore preds
    totalPredictions := totalPredictions preds }

theorem candidatePairs_mem (preds : List CalibPrediction)
    (hprob : ∀ p ∈ preds, ∀ s ∈ p.scores, 0 ≤ s.probability ∧ s.probability ≤ 100) :
    ∀ pr ∈ candidatePairs preds,
      (0 ≤ pr.1 ∧ pr.1 ≤ 100) ∧ (pr.2 = 0 ∨ pr.2 = 1) := by
  intro pr hpr
  simp only [candidatePairs, List.mem_flatten, List.mem_map] at hpr
  obtain ⟨l, ⟨p, hp, rfl⟩, hprl⟩ := hpr
  obtain ⟨s, hs, rfl⟩ := List.mem_map.mp hprl
  refine ⟨hprob p hp s hs, ?_⟩
  by_cases h : s.number ∈ p.actual
  · right; simp [h]
  · left; simp [h]

theorem binIdx_range (q : ℚ) (h0 : 0 ≤ q) : 0 ≤ binIdx q ∧ binIdx q ≤ 9 := by
  have hfl : (0 : ℤ) ≤ ⌊q / 10⌋ := Int.floor_nonneg.mpr (by positivity)
  constructor
  · exact le_min (by norm_num) hfl
  · exact min_le_left _ _

theorem sum_filter_binIdx (l : List (ℚ × ℚ))
    (h : ∀ pr ∈ l, 0 ≤ binIdx pr.1 ∧ binIdx pr.1 ≤ 9) :
    ∑ i ∈ Finset.range 10, (l.filter (fun pr => binIdx pr.1 = (i : ℤ))).length =
      l.length := by
  induction l with
  | nil => simp
  | cons x xs ih =>
    have hx := h x (List.mem_cons_self x xs)
    have hxs : ∀ pr ∈ xs, 0 ≤ binIdx pr.1 ∧ binIdx pr.1 ≤ 9 :=
      fun pr hpr => h pr (List.mem_cons_of_mem x hpr)
    have key : ∀ i : ℕ, ((x :: xs).filter (fun pr => binIdx pr.1 = (i : ℤ))).length =
        (if binIdx x.1 = (i : ℤ) then 1 else 0) +
          (xs.filter (fun pr => binIdx pr.1 = (i : ℤ))).length := by
      intro i
      by_cases hbi : binIdx x.1 = (i : ℤ)
      · simp [List.filter_cons, hbi]
        omega
      · simp [List.filter_cons, hbi]
    have hsingle :
        (∑ i ∈ Finset.range 10, if binIdx x.1 = (i : ℤ) then 1 else 0) = 1 := by
      obtain ⟨hx0, hx9⟩ := hx
      have hj : binIdx x.1 = ((binIdx x.1).toNat : ℤ) := (Int.toNat_of_nonneg hx0).symm
      have hjr : (binIdx x.1).toNat ∈ Finset.range 10 := by
        rw [Finset.mem_range]
        omega
      rw [hj]
      simp only [Nat.cast_inj]
      rw [Finset.sum_ite_eq]
      simp [hjr]
    rw [Finset.sum_congr rfl (fun i _ => key i), Finset.sum_add_distrib, hsingle,
      ih hxs, List.length_cons]
    omega

theorem totalPredictions_eq_length (preds : List CalibPrediction)
    (hprob : ∀ p ∈ preds, ∀ s ∈ p.scores, 0 ≤ s.probability ∧ s.probability ≤ 100) :
    totalPredictions preds = (candidatePairs preds).length := by
  refine sum_filter_binIdx (candidatePairs preds) ?_
  intro pr hpr
  exact binIdx_range pr.1 ((candidatePairs_mem preds hprob pr hpr).1.1)

theorem avgConfidence_bounds (preds : List CalibPrediction) (i : ℤ)
    (hprob : ∀ p ∈ preds, ∀ s ∈ p.scores, 0 ≤ s.probability ∧ s.probability ≤ 100) :
    0 ≤ avgConfidence preds i ∧ avgConfidence preds i ≤ 100 := by
  unfold avgConfidence
  by_cases hc : 0 < binCount preds i
  · have hmem : ∀ q ∈ (binPairs preds i).map Prod.fst, 0 ≤ q ∧ q ≤ 100 := by
      intro q hq
      obtain ⟨pr, hpr, rfl⟩ := List.mem_map.mp hq
      have hpr2 : pr ∈ candidatePairs preds := List.mem_of_mem_filter hpr
      exact (candidatePairs_mem preds hprob pr hpr2).1
    have hsum0 : 0 ≤ ((binPairs preds i).map Prod.fst).sum :=
      List.sum_nonneg (fun q hq => (hmem q hq).1)
    have hsum100 : ((binPairs preds i).map Prod.fst).sum ≤
        (((binPairs preds i).map Prod.fst).length : ℕ) • (100 : ℚ) :=
      List.sum_le_card_nsmul _ _ (fun q hq => (hmem q hq).2)
    have hcq : (0 : ℚ) < (binCount preds i : ℚ) := by exact_mod_cast hc
    rw [if_pos hc]
    constructor
    · exact div_nonneg hsum0 hcq.le
    · rw [div_le_iff hcq]
      have : (((binPairs preds i).map Prod.fst).length : ℕ) • (100 : ℚ) =
          100 * (binCount preds i : ℚ) := by
        rw [nsmul_eq_mul]
        simp [binCount]
        ring
      rw [this] at hsum100
      exact hsum100
  · rw [if_neg hc]
    norm_num

theorem accuracy_bounds (preds : List CalibPrediction) (i : ℤ)
    (hprob : ∀ p ∈ preds, ∀ s ∈ p.scores, 0 ≤ s.probability ∧ s.probability ≤ 100) :
    0 ≤ accuracy preds i ∧ accuracy preds i ≤ 100 := by
  unfold accuracy
  by_cases hc : 0 < binCount preds i
  · have hmem : ∀ q ∈ (binPairs preds i).map Prod.snd, 0 ≤ q ∧ q ≤ 1 := by
      intro q hq
      obtain ⟨pr, hpr, rfl⟩ := List.mem_map.mp hq
      have hpr2 : pr ∈ candidatePairs preds := List.mem_of_mem_filter hpr
      rcases (candidatePairs_mem preds hprob pr hpr2).2 with h | h <;> rw [h] <;> norm_num
    have hsum0 : 0 ≤ ((binPairs preds i).map Prod.snd).sum :=
      List.sum_nonneg (fun q hq => (hmem q hq).1)
    have hsum1 : ((binPairs preds i).map Prod.snd).sum ≤
        (((binPairs preds i).map Prod.snd).length : ℕ) • (1 : ℚ) :=
      List.sum_le_card_nsmul _ _ (fun q hq => (hmem q hq).2)
    have hcq : (0 : ℚ) < (binCount preds i : ℚ) := by exact_mod_cast hc
    have hsum1q : binHits preds i ≤ (binCount preds i : ℚ) := by
      unfold binHits
      have : (((binPairs preds i).map Prod.snd).length : ℕ) • (1 : ℚ) =
          (binCount preds i : ℚ) := by
        rw [nsmul_eq_mul]
        simp [binCount]
      rw [this] at hsum1
      exact hsum1
    rw [if_pos hc]
    constructor
    · have : 0 ≤ binHits preds i / (binCount preds i : ℚ) :=
        div_nonneg hsum0 hcq.le
      linarith
    · have hdiv : binHits preds i / (binCount preds i : ℚ) ≤ 1 :=
        (div_le_one hcq).mpr hsum1q
      linarith
  · rw [if_neg hc]
    norm_num

/-- C8: for every non-empty calibration dataset with all predicted
probabilities in `[0, 100]`, the returned ECE lies in `[0, 100]` and the
returned Brier score lies in `[0, 1]`. -/
theorem analyzeCalibration_bounds (preds : List CalibPrediction)
    (hne : preds ≠ [])
    (hprob : ∀ p ∈ preds, ∀ s ∈ p.scores, 0 ≤ s.probability ∧ s.probability ≤ 100) :
    (0 ≤ (analyzeCalibration preds).ece ∧ (analyzeCalibration preds).ece ≤ 100) ∧
      (0 ≤ (analyzeCalibration preds).brierScore ∧
        (analyzeCalibration preds).brierScore ≤ 1) := by
  have hece0 : 0 ≤ ece preds := by
    unfold ece
    refine Finset.sum_nonneg ?_
    intro i _
    by_cases hc : 0 < binCount preds (i : ℤ)
    · rw [if_pos hc]
      have h1 : (0 : ℚ) ≤ (binCount preds (i : ℤ) : ℚ) / (totalPredictions preds : ℚ) := by
        positivity
      exact mul_nonneg h1 (abs_nonneg _)
    · rw [if_neg hc]
  have hece100 : ece preds ≤ 100 := by
    by_cases hN : (candidatePairs preds).length = 0
    · have hbin : ∀ i : ℤ, binCount preds i = 0 := by
        intro i
        have := List.length_filter_le (fun pr => binIdx pr.1 = i) (candidatePairs preds)
        unfold binCount binPairs
        omega
      unfold ece
      have : ∀ i ∈ Finset.range 10,
          (if 0 < binCount preds (i : ℤ) then
            ((binCount preds (i : ℤ) : ℚ) / (totalPredictions preds : ℚ)) *
              |avgConfidence preds (i : ℤ) - accuracy preds (i : ℤ)| else 0) = 0 := by
        intro i _
        rw [if_neg]
        simp [hbin]
      rw [Finset.sum_congr rfl this]
      norm_num
    · have hNtot : totalPredictions preds = (candidatePairs preds).length :=
        totalPredictions_eq_length preds hprob
      have hNpos : 0 < totalPredictions preds := by omega
      have hNq : (0 : ℚ) < (totalPredictions preds : ℚ) := by exact_mod_cast hNpos
      have hterm : ∀ i ∈ Finset.range 10,
          (if 0 < binCount preds (i : ℤ) then
            ((binCount preds (i : ℤ) : ℚ) / (totalPredictions preds : ℚ)) *
              |avgConfidence preds (i : ℤ) - accuracy preds (i : ℤ)| else 0) ≤
            ((binCount preds (i : ℤ) : ℚ) / (totalPredictions preds : ℚ)) * 100 := by
        intro i _
        by_cases hc : 0 < binCount preds (i : ℤ)
        · rw [if_pos hc]
          have habs : |avgConfidence preds (i : ℤ) - accuracy preds (i : ℤ)| ≤ 100 := by
            obtain ⟨ha0, ha100⟩ := avgConfidence_bounds preds (i : ℤ) hprob
            obtain ⟨hb0, hb100⟩ := accuracy_bounds preds (i : ℤ) hprob
            rw [abs_le]
            constructor <;> linarith
          have hw : (0 : ℚ) ≤ (binCount preds (i : ℤ) : ℚ) / (totalPredictions preds : ℚ) := by
            positivity
          exact mul_le_mul_of_nonneg_left habs hw
        · rw [if_neg hc]
          positivity
      have hsum := Finset.sum_le_sum hterm
      have hfinal : ∑ i ∈ Finset.range 10,
          ((binCount preds (i : ℤ) : ℚ) / (totalPredictions preds : ℚ)) * 100 = 100 := by
        have : ∑ i ∈ Finset.range 10,
            ((binCount preds (i : ℤ) : ℚ) / (totalPredictions preds : ℚ)) * 100 =
            (∑ i ∈ Finset.range 10, (binCount preds (i : ℤ) : ℚ)) /
              (totalPredictions preds : ℚ) * 100 := by
          rw [Finset.sum_div, Finset.sum_mul]
        rw [this]
        have hcast : ∑ i ∈ Finset.range 10, (binCount preds (i : ℤ) : ℚ) =
            ((totalPredictions preds : ℕ) : ℚ) := by
          rw [totalPredictions]
          push_cast
          rfl
        rw [hcast, div_self (ne_of_gt hNq)]
        norm_num
      calc ece preds ≤ _ := hsum
        _ = 100 := hfinal
  have hbrier0 : 0 ≤ brierScore preds := by
    unfold brierScore
    by_cases hn : 0 < (candidatePairs preds).length
    · rw [if_pos hn]
      refine div_nonneg ?_ (by positivity)
      refine List.sum_nonneg ?_
      intro q hq
      obtain ⟨pr, _, rfl⟩ := List.mem_map.mp hq
      positivity
    · rw [if_neg hn]
  have hbrier1 : brierScore preds ≤ 1 := by
    unfold brierScore
    by_cases hn : 0 < (candidatePairs preds).length
    · rw [if_pos hn]
      have hnq : (0 : ℚ) < ((candidatePairs preds).length : ℚ) := by exact_mod_cast hn
      rw [div_le_one hnq]
      have hterm : ∀ q ∈ (candidatePairs preds).map (fun pr => (pr.1 / 100 - pr.2) ^ 2),
          q ≤ 1 := by
        intro q hq
        obtain ⟨pr, hpr, rfl⟩ := List.mem_map.mp hq
        obtain ⟨⟨hp0, hp100⟩, hind⟩ := candidatePairs_mem preds hprob pr hpr
        have h1 : pr.1 / 100 - pr.2 ≤ 1 := by
          rcases hind with h | h <;> rw [h] <;> [skip; skip] <;> linarith
        have h2 : -1 ≤ pr.1 / 100 - pr.2 := by
          rcases hind with h | h <;> rw [h] <;> [skip; skip] <;> linarith
        have habs : |pr.1 / 100 - pr.2| ≤ 1 := abs_le.mpr ⟨h2, h1⟩
        calc (pr.1 / 100 - pr.2) ^ 2 = |pr.1 / 100 - pr.2| ^ 2 := (sq_abs _).symm
          _ ≤ 1 ^ 2 := by
            refine pow_le_pow_left (abs_nonneg _) habs 2
          _ = 1 := one_pow 2
      have hsum := List.sum_le_card_nsmul _ _ hterm
      have hlen : (((candidatePairs preds).map (fun pr => (pr.1 / 100 - pr.2) ^ 2)).length : ℕ) •
          (1 : ℚ) = ((candidatePairs preds).length : ℚ) := by
        rw [nsmul_eq_mul]
        simp
      rw [hlen] at hsum
      exact hsum
    · rw [if_neg hn]
      norm_num
  exact ⟨⟨hece0, hece100⟩, hbrier0, hbrier1⟩

end ProbabilityScorer

/-- A concrete calibration dataset: one round, one candidate scored 50%,
which did appear. -/
def calib1 : List CalibPrediction :=
  [{ round := 1, scores := [{ number := 7, probability := 50 }], actual := [7, 8, 9] }]

/-- Witness for C8 at the concrete one-point calibration dataset. -/
theorem analyzeCalibration_bounds_witness :
    (0 ≤ (ProbabilityScorer.analyzeCalibration calib1).ece ∧
        (ProbabilityScorer.analyzeCalibration calib1).ece ≤ 100) ∧
      (0 ≤ (ProbabilityScorer.analyzeCalibration calib1).brierScore ∧
        (ProbabilityScorer.analyzeCalibration calib1).brierScore ≤ 1) :=
  ProbabilityScorer.analyzeCalibration_bounds calib1 (by simp [calib1])
    (by
      intro p hp s hs
      simp only [calib1, List.mem_singleton] at hp
      subst hp
      simp only [List.mem_singleton] at hs
      subst hs
      norm_num)

/-- The `statistics` object read by the optimizer's metric extractor; every
field may be absent (`undefined`). -/
structure OptStats where
  hitRates : Option (List (ℕ × ℚ))
  hit3PlusRate : Option ℚ
  averageHits : Option ℚ
  lifts : Option (List (ℕ × ℚ))
  sharpeLikeRatio : Option ℚ
  mrr : Option ℚ
  top6Accuracy : Option ℚ
deriving DecidableEq, Repr

/-- A backtest result as consumed by the optimizer (`backtestResult.statistics
|| {}`). -/
structure OptBacktestResult where
  statistics : Option OptStats
deriving DecidableEq, Repr

/-- The empty object `{}` used when `statistics` is absent. -/
def emptyOptStats : OptStats :=
  { hitRates := none, hit3PlusRate := none, averageHits := none, lifts := none
    sharpeLikeRatio := none, mrr := none, top6Accuracy := none }

/-- `m && m[k]` for an optional numeric map: the looked-up value when the map
is present, else absent. -/
def lookupTruthy (m : Option (List (ℕ × ℚ))) (k : ℕ) : Option ℚ :=
  match m with
  | some l => l.lookup k
  | none => none

namespace StrategyOptimizer

/-- `StrategyOptimizer.extractMetric`: the `switch` over the metric name,
with JavaScript truthiness on each ternary (`x ? x : y` falls through when
`x` is absent or `0`); unknown metrics yield `0`. -/
def extractMetric (b : OptBacktestResult) (metric : String) : ℚ :=
  let stats := b.statistics.getD emptyOptStats
  match metric with
  | "hit_rate_3" => jsOrQ (lookupTruthy stats.hitRates 3) (jsOrQ stats.hit3PlusRate 0)
  | "hit_rate_4" => jsOrQ (lookupTruthy stats.hitRates 4) 0
  | "average_hits" => jsOrQ stats.averageHits 0
  | "lift_3" => jsOrQ (lookupTruthy stats.lifts 3) 0
  | "lift_4" => jsOrQ (lookupTruthy stats.lifts 4) 0
  | "sharpe_ratio" => jsOrQ stats.sharpeLikeRatio 0
  | "mrr" => jsOrQ stats.mrr 0
  | "top6_accuracy" => jsOrQ stats.top6Accuracy 0
  | _ => 0

/-- `StrategyOptimizer.generateParamCombinations` with `maxCombinations`
unset: the full Cartesian product, outer loop over already-built combinations,
inner loop over the next parameter's values, then each combination zipped
with the parameter names.  (The `maxCombinations` cap triggers a
`Math.random()` shuffle and is out of scope: the claims fix no cap.) -/
def generateParamCombinations (paramGrid : List (String × List ℤ)) :
    List (List (String × ℤ)) :=
  let paramNames := paramGrid.map Prod.fst
  let paramValues := paramGrid.map Prod.snd
  let combinations := paramValues.foldl
    (fun combos values =>
      (combos.map (fun combo => values.map (fun v => combo ++ [v]))).flatten)
    [[]]
  combinations.map (fun combo => paramNames.zip combo)

/-- One element of `allResults` (the heavyweight diagnostic payload fields
`metrics`/`backtestResult` are omitted); `score = none` models the literal
`-Infinity` recorded for a failed combination. -/
structure OptEntry where
  params : List (String × ℤ)
  score : Option ℚ
  error : Option String
deriving DecidableEq, Repr

/-- The optimizer's return object (`paramSensitivity`, a standard-deviation
report, is an irrational square-root quantity no claim refers to and is
omitted); `bestScore = none` models the initial `-Infinity`. -/
structure OptimizationResult where
  bestParams : Option (List (String × ℤ))
  bestScore : Option ℚ
  allResults : List OptEntry
  metric : String
  totalCombinations : ℕ
deriving DecidableEq, Repr

/-- `score > bestScore` where `bestScore` may still be `-Infinity`. -/
def scoreGt (s : ℚ) : Option ℚ → Bool
  | none => true
  | some b => decide (b < s)

/-- `a <= b` on scores where `none` is `-Infinity` (used to model the final
descending `sort((a, b) => b.score - a.score)`). -/
def scoreLeB : Option ℚ → Option ℚ → Bool
  | none, _ => true
  | some _, none => false
  | some x, some y => decide (x ≤ y)

/-- The loop body of `optimize`: run the backtest for one parameter
combination, extract the score and track the best on success, or record the
combination as failed with score `-Infinity` on a thrown error. -/
def optStep (metric : String)
    (backtest : List (String × ℤ) → Except String OptBacktestResult)
    (st : Option ℚ × Option (List (String × ℤ)) × List OptEntry)
    (params : List (String × ℤ)) :
    Option ℚ × Option (List (String × ℤ)) × List OptEntry :=
  let (bestScore, bestParams, allResults) := st
  match backtest params with
  | Except.ok backtestResult =>
    let score := extractMetric backtestResult metric
    let result : OptEntry := { params := params, score := some score, error := none }
    if scoreGt score bestScore then (some score, some params, allResults ++ [result])
    else (bestScore, bestParams, allResults ++ [result])
  | Except.error msg =>
    (bestScore, bestParams,
      allResults ++ [{ params := params, score := none, error := some msg }])

/-- `StrategyOptimizer.optimize`, instrumented: the second component records,
in order, the parameter combination handed to the backtest function at its
single call site — one entry per combination. -/
def optimizeLogged (paramGrid : List (String × List ℤ)) (metric : String)
    (backtest : List (String × ℤ) → Except String OptBacktestResult) :
    OptimizationResult × List (List (String × ℤ)) :=
  let paramCombinations := generateParamCombinations paramGrid
  let final := paramCombinations.foldl (optStep metric backtest) (none, none, [])
  ({ bestParams := final.2.1
     bestScore := final.1
     allResults :=
       List.insertionSort (fun e1 e2 => scoreLeB e2.score e1.score = true) final.2.2
     metric := metric
     totalCombinations := paramCombinations.length }, paramCombinations)

/-- The `allResults` entry that `optimize` records for one combination. -/
def entryFor (metric : String)
    (backtest : List (String × ℤ) → Except String OptBacktestResult)
    (params : List (String × ℤ)) : OptEntry :=
  match backtest params with
  | Except.ok r => { params := params, score := some (extractMetric r metric), error := none }
  | Except.error msg => { params := params, score := none, error := some msg }

theorem optStep_results (metric : String)
    (backtest : List (String × ℤ) → Except String OptBacktestResult)
    (st : Option ℚ × Option (List (String × ℤ)) × List OptEntry)
    (params : List (String × ℤ)) :
    (optStep metric backtest st params).2.2 =
      st.2.2 ++ [entryFor metric backtest params] := by
  obtain ⟨bs, bp, res⟩ := st
  unfold optStep entryFor
  cases backtest params with
  | ok r =>
    dsimp only
    split <;> rfl
  | error msg => rfl

theorem optimize_foldl_results (metric : String)
    (backtest : List (String × ℤ) → Except String OptBacktestResult) :
    ∀ (combos : List (List (String × ℤ)))
      (st : Option ℚ × Option (List (String × ℤ)) × List OptEntry),
      (combos.foldl (optStep metric backtest) st).2.2 =
        st.2.2 ++ combos.map (entryFor metric backtest) := by
  intro combos
  induction combos with
  | nil => intro st; simp
  | cons c cs ih =>
    intro st
    rw [List.foldl_cons, ih, List.map_cons, optStep_results]
    simp

end StrategyOptimizer

/-- The claim's concrete parameter grid `{a: [1, 2], b: [10, 20]}`. -/
def gridAB : List (String × List ℤ) :=
  [("a", [1, 2]), ("b", [10, 20])]

/-- C9: over the grid `{a: [1,2], b: [10,20]}` with no iteration cap, the
optimizer calls the backtest pipeline exactly 4 times — once per element of
the Cartesian product, in enumeration order — and the returned
per-combination result list is exactly (up to the final score sort) the 4
`(a, b)` pairs, each carrying the score extracted from its backtest result. -/
theorem optimize_grid_completeness (metric : String)
    (backtest : List (String × ℤ) → Except String OptBacktestResult) :
    (StrategyOptimizer.optimizeLogged gridAB metric backtest).2 =
        [[("a", 1), ("b", 10)], [("a", 1), ("b", 20)],
          [("a", 2), ("b", 10)], [("a", 2), ("b", 20)]] ∧
      (StrategyOptimizer.optimizeLogged gridAB metric backtest).1.totalCombinations = 4 ∧
      (StrategyOptimizer.optimizeLogged gridAB metric backtest).1.allResults.Perm
        ([[("a", 1), ("b", 10)], [("a", 1), ("b", 20)],
          [("a", 2), ("b", 10)], [("a", 2), ("b", 20)]].map
          (StrategyOptimizer.entryFor metric backtest)) := by
  refine ⟨rfl, rfl, ?_⟩
  have hres : (StrategyOptimizer.optimizeLogged gridAB metric backtest).1.allResults =
      List.insertionSort (fun e1 e2 => StrategyOptimizer.scoreLeB e2.score e1.score = true)
        (((StrategyOptimizer.generateParamCombinations gridAB).foldl
          (StrategyOptimizer.optStep metric backtest) (none, none, [])).2.2) := rfl
  rw [hres]
  refine (List.perm_insertionSort _ _).trans ?_
  rw [StrategyOptimizer.optimize_foldl_results]
  simp only [List.nil_append]
  have hcombos : StrategyOptimizer.generateParamCombinations gridAB =
      [[("a", 1), ("b", 10)], [("a", 1), ("b", 20)],
        [("a", 2), ("b", 10)], [("a", 2), ("b", 20)]] := rfl
  rw [hcombos]

namespace WalkForwardBacktester

/-- The constructor body `this.data = data; this.data.sort((a, b) =>
a.round - b.round)`: `Array.prototype.sort` is in place and (per the
language specification) stable, so after the constructor returns the
caller's array holds this stable ascending-by-round reordering of its
previous elements. -/
def constructorData (data : List DrawRecord) : List DrawRecord :=
  List.insertionSort (fun a b => a.round ≤ b.round) data

end WalkForwardBacktester

instance : IsTotal DrawRecord (fun a b => a.round ≤ b.round) :=
  ⟨fun a b => le_total a.round b.round⟩

instance : IsTrans DrawRecord (fun a b => a.round ≤ b.round) :=
  ⟨fun _ _ _ hab hbc => le_trans hab hbc⟩

/-- C10: constructing a `WalkForwardBacktester` reorders the caller's draw
array in place: afterwards the array holds a permutation of its previous
elements, sorted ascending by `round`. -/
theorem constructor_sorts_data (data : List DrawRecord) :
    (WalkForwardBacktester.constructorData data).Perm data ∧
      (WalkForwardBacktester.constructorData data).Sorted
        (fun a b => a.round ≤ b.round) :=
  ⟨List.perm_insertionSort _ data, List.sorted_insertionSort _ data⟩

end Lotto
